import Mathlib

/-!
Shallow embedding of the `binser` binary serialization stream (`buffer.go`)
and proofs of the specification claims about it.

Machine bytes and unsigned machine integers are modelled as `Nat` (with
explicit `% 2 ^ w` where the Go code truncates), signed machine integers as
`Int` restricted to the corresponding two's-complement range, and run-time
panics (out-of-range slice expressions and out-of-range indexing) as
`Option.none`.

The size constants `SizeUint8 .. SizeInt64` that `buffer.go` references are
declared elsewhere in the repository; they are the widths in bytes of the
fixed-width types (1, 2, 4 and 8, the spec's `sizeof(type)`), and appear
below as those literals.
-/

namespace Binser

/-- Go slice expression `s[lo:hi]` on a slice with the given initialized data
and total backing-array capacity.  It panics (`none`) unless
`lo ≤ hi ∧ hi ≤ cap`; positions at or beyond the data length but below the
capacity read the zero bytes of the freshly allocated backing array. -/
def goSlice (data : List Nat) (cap lo hi : Nat) : Option (List Nat) :=
  if lo ≤ hi ∧ hi ≤ cap then
    some (((data ++ List.replicate (cap - data.length) 0).drop lo).take (hi - lo))
  else
    none

/-- The `Stream` struct of `buffer.go`: backing byte slice (its initialized
data plus the capacity of its backing array), cursor position, mode flag and
sticky error.  The only error the code ever stores is `io.EOF`, so the error
slot is a `Bool`. -/
structure Stream where
  buf : List Nat
  cap : Nat
  pos : Nat
  reading : Bool
  err : Bool
deriving DecidableEq

/-- Go `b.buf = append(b.buf, x)`: the data grows by one byte; when the
backing array is full it is reallocated (transparently), so the capacity
afterwards is only guaranteed to be at least the new length. -/
def Stream.app1 (b : Stream) (x : Nat) : Stream :=
  { b with buf := b.buf ++ [x], cap := max b.cap (b.buf.length + 1) }

/-- `NewWritingStream(size)`: empty growable backing slice of the given
capacity, write mode. -/
def NewWritingStream (size : Nat) : Stream :=
  { buf := [], cap := size, pos := 0, reading := false, err := false }

/-- `NewStream(buf)`: read mode over a non-empty slice; write mode reusing an
empty slice that has capacity; otherwise a fresh 1500-byte write stream. -/
def NewStream (buf : List Nat) (cap : Nat) : Stream :=
  if buf.length = 0 then
    if 0 < cap then
      { buf := buf, cap := cap, pos := 0, reading := false, err := false }
    else
      NewWritingStream 1500
  else
    { buf := buf, cap := cap, pos := 0, reading := true, err := false }

/-- `NewReadingStreamCopy(buf)`: copies the bytes into a fresh array (whose
capacity is exactly the length) and returns a read-mode stream over it. -/
def NewReadingStreamCopy (buf : List Nat) : Stream :=
  { buf := buf, cap := buf.length, pos := 0, reading := true, err := false }

/-- `Copy`: a read-mode copy of the current backing bytes. -/
def Stream.Copy (b : Stream) : Stream :=
  NewReadingStreamCopy b.buf

/-- `GetBytes(length)`.  Note the source compares `len(b.buf) < length`, not
the bytes remaining after `b.pos`; the slice expression
`b.buf[b.pos : b.pos+length]` then panics when `b.pos+length` exceeds the
capacity, and reads past the initialized data when it exceeds only the
length. -/
def Stream.GetBytes (b : Stream) (length : Nat) : Option (List Nat × Stream) :=
  if b.err then some ([], b)
  else if b.buf.length < length then some ([], { b with err := true })
  else
    match goSlice b.buf b.cap b.pos (b.pos + length) with
    | none => none
    | some value => some (value, { b with pos := b.pos + length })

/-- `Uint8`: the returned `Nat` is the value of the pointed-to field after the
call (unchanged in write mode or on error). -/
def Stream.Uint8 (b : Stream) (n : Nat) : Option (Nat × Stream) :=
  if b.err then some (n, b)
  else if b.reading then
    if b.buf.length < b.pos + 1 then some (n, { b with err := true })
    else
      match goSlice b.buf b.cap b.pos (b.pos + 1) with
      | none => none
      | some buf => some (buf.headD 0, { b with pos := b.pos + 1 })
  else
    some (n, { b.app1 (n % 256) with pos := b.pos + 1 })

/-- `Uint16`.  The read branch does not check the error after `GetBytes`, so
on a short buffer it indexes the returned nil slice and panics. -/
def Stream.Uint16 (b : Stream) (n : Nat) : Option (Nat × Stream) :=
  if b.err then some (n, b)
  else if b.reading then
    match b.GetBytes 2 with
    | none => none
    | some (buf, b₂) =>
      match buf with
      | b0 :: b1 :: _ => some (b0 ||| (b1 <<< 8), b₂)
      | _ => none
  else
    some (n, { (b.app1 (n % 256)).app1 ((n >>> 8) % 256) with pos := b.pos + 2 })

/-- `Uint32`.  Same missing error check after `GetBytes` as `Uint16`. -/
def Stream.Uint32 (b : Stream) (n : Nat) : Option (Nat × Stream) :=
  if b.err then some (n, b)
  else if b.reading then
    match b.GetBytes 4 with
    | none => none
    | some (buf, b₂) =>
      match buf with
      | b0 :: b1 :: b2 :: b3 :: _ =>
        some (((b0 ||| (b1 <<< 8)) ||| (b2 <<< 16)) ||| (b3 <<< 24), b₂)
      | _ => none
  else
    some (n, { ((((b.app1 (n % 256)).app1 ((n >>> 8) % 256)).app1
      ((n >>> 16) % 256)).app1 ((n >>> 24) % 256)) with pos := b.pos + 4 })

/-- `Uint64`.  Appends eight bytes but the source advances `b.pos` by only 4;
the read branch has the same missing error check as `Uint16`. -/
def Stream.Uint64 (b : Stream) (n : Nat) : Option (Nat × Stream) :=
  if b.err then some (n, b)
  else if b.reading then
    match b.GetBytes 8 with
    | none => none
    | some (buf, b₂) =>
      match buf with
      | b0 :: b1 :: b2 :: b3 :: b4 :: b5 :: b6 :: b7 :: _ =>
        some (((((((b0 ||| (b1 <<< 8)) ||| (b2 <<< 16)) ||| (b3 <<< 24)) |||
          (b4 <<< 32)) ||| (b5 <<< 40)) ||| (b6 <<< 48)) ||| (b7 <<< 56), b₂)
      | _ => none
  else
    some (n, { ((((((((b.app1 (n % 256)).app1 ((n >>> 8) % 256)).app1
      ((n >>> 16) % 256)).app1 ((n >>> 24) % 256)).app1
      ((n >>> 32) % 256)).app1 ((n >>> 40) % 256)).app1
      ((n >>> 48) % 256)).app1 ((n >>> 56) % 256)) with pos := b.pos + 4 })

/-- Two's-complement value of a `w`-bit pattern, as Go's fixed-width signed
integer types interpret it. -/
def toSigned (w p : Nat) : Int :=
  if p < 2 ^ (w - 1) then (p : Int) else (p : Int) - 2 ^ w

/-- Go conversion `byte(x)` of a signed integer: the low 8 bits of its
two's-complement pattern. -/
def byteOfInt (x : Int) : Nat := (x % 256).toNat

/-- Go arithmetic right shift `x >> k` of a signed integer, i.e. floor
division by `2 ^ k`. -/
def sar (x : Int) (k : Nat) : Int := Int.fdiv x (2 ^ k)

/-- `Int8`: reads `int8(buf[0])`, i.e. the two's-complement value of the
byte; writes `byte(*n)`. -/
def Stream.Int8 (b : Stream) (n : Int) : Option (Int × Stream) :=
  if b.err then some (n, b)
  else if b.reading then
    if b.buf.length < b.pos + 1 then some (n, { b with err := true })
    else
      match goSlice b.buf b.cap b.pos (b.pos + 1) with
      | none => none
      | some buf => some (toSigned 8 (buf.headD 0), { b with pos := b.pos + 1 })
  else
    some (n, { b.app1 (byteOfInt n) with pos := b.pos + 1 })

/-- `Int16`.  Unlike `Uint16`, the source checks the error after `GetBytes`.
The two `|=` steps on the Go `int16` assemble the 16-bit two's-complement
pattern `buf[0] ||| buf[1] <<< 8`, which the type then interprets. -/
def Stream.Int16 (b : Stream) (n : Int) : Option (Int × Stream) :=
  if b.err then some (n, b)
  else if b.reading then
    match b.GetBytes 2 with
    | none => none
    | some (buf, b₂) =>
      if b₂.err then some (n, b₂)
      else
        match buf with
        | b0 :: b1 :: _ => some (toSigned 16 (b0 ||| (b1 <<< 8)), b₂)
        | _ => none
  else
    some (n, { (b.app1 (byteOfInt n)).app1 (byteOfInt (sar n 8)) with pos := b.pos + 2 })

/-- `Int32`, with the post-`GetBytes` error check of the signed readers. -/
def Stream.Int32 (b : Stream) (n : Int) : Option (Int × Stream) :=
  if b.err then some (n, b)
  else if b.reading then
    match b.GetBytes 4 with
    | none => none
    | some (buf, b₂) =>
      if b₂.err then some (n, b₂)
      else
        match buf with
        | b0 :: b1 :: b2 :: b3 :: _ =>
          some (toSigned 32 (((b0 ||| (b1 <<< 8)) ||| (b2 <<< 16)) ||| (b3 <<< 24)), b₂)
        | _ => none
  else
    some (n, { ((((b.app1 (byteOfInt n)).app1 (byteOfInt (sar n 8))).app1
      (byteOfInt (sar n 16))).app1 (byteOfInt (sar n 24))) with pos := b.pos + 4 })

/-- `Int64`.  Appends eight bytes but, like `Uint64`, the source advances
`b.pos` by only 4 in write mode. -/
def Stream.Int64 (b : Stream) (n : Int) : Option (Int × Stream) :=
  if b.err then some (n, b)
  else if b.reading then
    match b.GetBytes 8 with
    | none => none
    | some (buf, b₂) =>
      if b₂.err then some (n, b₂)
      else
        match buf with
        | b0 :: b1 :: b2 :: b3 :: b4 :: b5 :: b6 :: b7 :: _ =>
          some (toSigned 64 (((((((b0 ||| (b1 <<< 8)) ||| (b2 <<< 16)) |||
            (b3 <<< 24)) ||| (b4 <<< 32)) ||| (b5 <<< 40)) ||| (b6 <<< 48)) |||
            (b7 <<< 56)), b₂)
        | _ => none
  else
    some (n, { ((((((((b.app1 (byteOfInt n)).app1 (byteOfInt (sar n 8))).app1
      (byteOfInt (sar n 16))).app1 (byteOfInt (sar n 24))).app1
      (byteOfInt (sar n 32))).app1 (byteOfInt (sar n 40))).app1
      (byteOfInt (sar n 48))).app1 (byteOfInt (sar n 56))) with pos := b.pos + 4 })

/-- An IEEE-754 single-precision value, identified with its sign, biased
exponent and fraction fields; NaN payloads are preserved, so this is
bit-exact. -/
structure FP32 where
  sign : Bool
  exp : Nat
  frac : Nat
deriving DecidableEq

/-- Well-formedness of the `FP32` fields. -/
def FP32.WF (f : FP32) : Prop := f.exp < 2 ^ 8 ∧ f.frac < 2 ^ 23

/-- `math.Float32bits`: the 32-bit pattern of the float. -/
def float32bits (f : FP32) : Nat :=
  (cond f.sign 1 0) * 2 ^ 31 + f.exp * 2 ^ 23 + f.frac

/-- `math.Float32frombits`: the float fields of a 32-bit pattern. -/
def float32frombits (u : Nat) : FP32 :=
  ⟨decide (u / 2 ^ 31 % 2 = 1), u / 2 ^ 23 % 2 ^ 8, u % 2 ^ 23⟩

/-- An IEEE-754 double-precision value, identified with its fields. -/
structure FP64 where
  sign : Bool
  exp : Nat
  frac : Nat
deriving DecidableEq

/-- Well-formedness of the `FP64` fields. -/
def FP64.WF (f : FP64) : Prop := f.exp < 2 ^ 11 ∧ f.frac < 2 ^ 52

/-- `math.Float64bits`: the 64-bit pattern of the float. -/
def float64bits (f : FP64) : Nat :=
  (cond f.sign 1 0) * 2 ^ 63 + f.exp * 2 ^ 52 + f.frac

/-- `math.Float64frombits`: the float fields of a 64-bit pattern. -/
def float64frombits (u : Nat) : FP64 :=
  ⟨decide (u / 2 ^ 63 % 2 = 1), u / 2 ^ 52 % 2 ^ 11, u % 2 ^ 52⟩

/-- `Float32`: bit-reinterpretation through `Uint32` in both directions. -/
def Stream.Float32 (b : Stream) (n : FP32) : Option (FP32 × Stream) :=
  if b.err then some (n, b)
  else if b.reading then
    match b.Uint32 0 with
    | none => none
    | some (v, b₂) => some (float32frombits v, b₂)
  else
    (b.Uint32 (float32bits n)).map (fun p => (n, p.2))

/-- `Float64`: bit-reinterpretation through `Uint64` in both directions. -/
def Stream.Float64 (b : Stream) (n : FP64) : Option (FP64 × Stream) :=
  if b.err then some (n, b)
  else if b.reading then
    match b.Uint64 0 with
    | none => none
    | some (v, b₂) => some (float64frombits v, b₂)
  else
    (b.Uint64 (float64bits n)).map (fun p => (n, p.2))

/-- `GetByte`: reads one byte through `Uint8`, returning 0 on error. -/
def Stream.GetByte (b : Stream) : Option (Nat × Stream) :=
  if b.err then some (0, b)
  else b.Uint8 0

/-- `WriteByte`: appends unconditionally — the source has no sticky-error
check and no mode check here. -/
def Stream.WriteByte (b : Stream) (n : Nat) : Stream :=
  { b.app1 n with pos := b.pos + 1 }

/-- `WriteBytes`: `WriteByte` for each byte of `src`. -/
def Stream.WriteBytes (b : Stream) (src : List Nat) : Stream :=
  match src with
  | [] => b
  | x :: rest => (b.WriteByte x).WriteBytes rest

/-- `WriteBytesN`: `WriteByte` for the first `length` entries of `src`;
indexing `src[i]` panics when `length` exceeds the length of `src`. -/
def Stream.WriteBytesN (b : Stream) (src : List Nat) (length : Nat) : Option Stream :=
  match length, src with
  | 0, _ => some b
  | _ + 1, [] => none
  | l + 1, x :: rest => (b.WriteByte x).WriteBytesN rest l

/-! ### Arithmetic lemmas: little-endian byte recombination -/

theorem lor_shiftLeft_eq_add {a b k : Nat} (ha : a < 2 ^ k) :
    a ||| (b <<< k) = a + b * 2 ^ k := by
  apply Nat.eq_of_testBit_eq
  intro i
  rcases Nat.lt_or_ge i k with hik | hik
  · have h1 : (b <<< k).testBit i = false := by
      have hnot : ¬ (i ≥ k) := by omega
      simp [Nat.testBit_shiftLeft, hnot]
    have hk : (2 : Nat) ^ k = 2 ^ (k - i - 1) * 2 * 2 ^ i := by
      rw [← Nat.pow_succ, ← Nat.pow_add]
      congr 1
      omega
    have h5 : a + b * 2 ^ k = a + b * 2 ^ (k - i - 1) * 2 * 2 ^ i := by
      rw [hk]; ring
    have h6 : (a / 2 ^ i + b * 2 ^ (k - i - 1) * 2) % 2 = a / 2 ^ i % 2 := by
      omega
    rw [Nat.testBit_or, h1, Bool.or_false, Nat.testBit_to_div_mod, Nat.testBit_to_div_mod, h5,
        Nat.add_mul_div_right _ _ (Nat.two_pow_pos i), h6]
  · obtain ⟨j, rfl⟩ : ∃ j, i = k + j := ⟨i - k, by omega⟩
    have h1 : a.testBit (k + j) = false :=
      Nat.testBit_lt_two_pow (Nat.lt_of_lt_of_le ha (Nat.pow_le_pow_right (by norm_num) hik))
    have h2 : (b <<< k).testBit (k + j) = b.testBit j := by
      have hge : k + j ≥ k := Nat.le_add_right k j
      simp [Nat.testBit_shiftLeft, hge]
    have h4 : (a + b * 2 ^ k) / 2 ^ (k + j) = b / 2 ^ j := by
      rw [Nat.pow_add, ← Nat.div_div_eq_div_mul, Nat.add_mul_div_right _ _ (Nat.two_pow_pos k),
          Nat.div_eq_of_lt ha, Nat.zero_add]
    rw [Nat.testBit_or, h1, Bool.false_or, h2, Nat.testBit_to_div_mod, Nat.testBit_to_div_mod, h4]

theorem recomb32 {b0 b1 b2 b3 : Nat} (h0 : b0 < 2 ^ 8) (h1 : b1 < 2 ^ 8) (h2 : b2 < 2 ^ 8) :
    ((b0 ||| (b1 <<< 8)) ||| (b2 <<< 16)) ||| (b3 <<< 24)
      = b0 + b1 * 2 ^ 8 + b2 * 2 ^ 16 + b3 * 2 ^ 24 := by
  rw [lor_shiftLeft_eq_add h0,
      lor_shiftLeft_eq_add (show b0 + b1 * 2 ^ 8 < 2 ^ 16 by omega),
      lor_shiftLeft_eq_add (show b0 + b1 * 2 ^ 8 + b2 * 2 ^ 16 < 2 ^ 24 by omega)]

theorem recomb64 {b0 b1 b2 b3 b4 b5 b6 b7 : Nat} (h0 : b0 < 2 ^ 8) (h1 : b1 < 2 ^ 8)
    (h2 : b2 < 2 ^ 8) (h3 : b3 < 2 ^ 8) (h4 : b4 < 2 ^ 8) (h5 : b5 < 2 ^ 8)
    (h6 : b6 < 2 ^ 8) :
    ((((((b0 ||| (b1 <<< 8)) ||| (b2 <<< 16)) ||| (b3 <<< 24)) ||| (b4 <<< 32)) |||
      (b5 <<< 40)) ||| (b6 <<< 48)) ||| (b7 <<< 56)
      = b0 + b1 * 2 ^ 8 + b2 * 2 ^ 16 + b3 * 2 ^ 24 + b4 * 2 ^ 32 + b5 * 2 ^ 40 +
        b6 * 2 ^ 48 + b7 * 2 ^ 56 := by
  rw [lor_shiftLeft_eq_add h0,
      lor_shiftLeft_eq_add (show b0 + b1 * 2 ^ 8 < 2 ^ 16 by omega),
      lor_shiftLeft_eq_add (show b0 + b1 * 2 ^ 8 + b2 * 2 ^ 16 < 2 ^ 24 by omega),
      lor_shiftLeft_eq_add (show b0 + b1 * 2 ^ 8 + b2 * 2 ^ 16 + b3 * 2 ^ 24 < 2 ^ 32 by omega),
      lor_shiftLeft_eq_add (show b0 + b1 * 2 ^ 8 + b2 * 2 ^ 16 + b3 * 2 ^ 24 + b4 * 2 ^ 32
        < 2 ^ 40 by omega),
      lor_shiftLeft_eq_add (show b0 + b1 * 2 ^ 8 + b2 * 2 ^ 16 + b3 * 2 ^ 24 + b4 * 2 ^ 32 +
        b5 * 2 ^ 40 < 2 ^ 48 by omega),
      lor_shiftLeft_eq_add (show b0 + b1 * 2 ^ 8 + b2 * 2 ^ 16 + b3 * 2 ^ 24 + b4 * 2 ^ 32 +
        b5 * 2 ^ 40 + b6 * 2 ^ 48 < 2 ^ 56 by omega)]

/-! ### Write-mode behavior of each accessor -/

theorem app1_pair (b : Stream) (x y : Nat) :
    (b.app1 x).app1 y = { b with
      buf := b.buf ++ [x, y]
      cap := max b.cap (b.buf.length + 2) } := by
  simp [Stream.app1]
  omega

theorem app1_quad (b : Stream) (c0 c1 c2 c3 : Nat) :
    (((b.app1 c0).app1 c1).app1 c2).app1 c3 = { b with
      buf := b.buf ++ [c0, c1, c2, c3]
      cap := max b.cap (b.buf.length + 4) } := by
  simp only [app1_pair]
  simp
  omega

theorem app1_oct (b : Stream) (c0 c1 c2 c3 c4 c5 c6 c7 : Nat) :
    (((((((b.app1 c0).app1 c1).app1 c2).app1 c3).app1 c4).app1 c5).app1 c6).app1 c7
      = { b with
          buf := b.buf ++ [c0, c1, c2, c3, c4, c5, c6, c7]
          cap := max b.cap (b.buf.length + 8) } := by
  simp only [app1_pair]
  simp
  omega

theorem Uint8_write (b : Stream) (n : Nat) (hr : b.reading = false) (he : b.err = false) :
    b.Uint8 n = some (n, { b with
      buf := b.buf ++ [n % 256]
      cap := max b.cap (b.buf.length + 1)
      pos := b.pos + 1 }) := by
  simp [Stream.Uint8, Stream.app1, hr, he]

theorem Uint16_write (b : Stream) (n : Nat) (hr : b.reading = false) (he : b.err = false) :
    b.Uint16 n = some (n, { b with
      buf := b.buf ++ [n % 256, (n >>> 8) % 256]
      cap := max b.cap (b.buf.length + 2)
      pos := b.pos + 2 }) := by
  simp [Stream.Uint16, app1_pair, hr, he]

theorem Uint32_write (b : Stream) (n : Nat) (hr : b.reading = false) (he : b.err = false) :
    b.Uint32 n = some (n, { b with
      buf := b.buf ++ [n % 256, (n >>> 8) % 256, (n >>> 16) % 256, (n >>> 24) % 256]
      cap := max b.cap (b.buf.length + 4)
      pos := b.pos + 4 }) := by
  simp [Stream.Uint32, app1_quad, hr, he]

theorem Uint64_write (b : Stream) (n : Nat) (hr : b.reading = false) (he : b.err = false) :
    b.Uint64 n = some (n, { b with
      buf := b.buf ++ [n % 256, (n >>> 8) % 256, (n >>> 16) % 256, (n >>> 24) % 256,
        (n >>> 32) % 256, (n >>> 40) % 256, (n >>> 48) % 256, (n >>> 56) % 256]
      cap := max b.cap (b.buf.length + 8)
      pos := b.pos + 4 }) := by
  simp [Stream.Uint64, app1_oct, hr, he]

theorem Int8_write (b : Stream) (n : Int) (hr : b.reading = false) (he : b.err = false) :
    b.Int8 n = some (n, { b with
      buf := b.buf ++ [byteOfInt n]
      cap := max b.cap (b.buf.length + 1)
      pos := b.pos + 1 }) := by
  simp [Stream.Int8, Stream.app1, hr, he]

theorem Int16_write (b : Stream) (n : Int) (hr : b.reading = false) (he : b.err = false) :
    b.Int16 n = some (n, { b with
      buf := b.buf ++ [byteOfInt n, byteOfInt (sar n 8)]
      cap := max b.cap (b.buf.length + 2)
      pos := b.pos + 2 }) := by
  simp [Stream.Int16, app1_pair, hr, he]

theorem Int32_write (b : Stream) (n : Int) (hr : b.reading = false) (he : b.err = false) :
    b.Int32 n = some (n, { b with
      buf := b.buf ++ [byteOfInt n, byteOfInt (sar n 8), byteOfInt (sar n 16),
        byteOfInt (sar n 24)]
      cap := max b.cap (b.buf.length + 4)
      pos := b.pos + 4 }) := by
  simp [Stream.Int32, app1_quad, hr, he]

theorem Int64_write (b : Stream) (n : Int) (hr : b.reading = false) (he : b.err = false) :
    b.Int64 n = some (n, { b with
      buf := b.buf ++ [byteOfInt n, byteOfInt (sar n 8), byteOfInt (sar n 16),
        byteOfInt (sar n 24), byteOfInt (sar n 32), byteOfInt (sar n 40),
        byteOfInt (sar n 48), byteOfInt (sar n 56)]
      cap := max b.cap (b.buf.length + 8)
      pos := b.pos + 4 }) := by
  simp [Stream.Int64, app1_oct, hr, he]

theorem Float32_write (b : Stream) (f : FP32) (hr : b.reading = false) (he : b.err = false) :
    b.Float32 f = some (f, { b with
      buf := b.buf ++ [float32bits f % 256, (float32bits f >>> 8) % 256,
        (float32bits f >>> 16) % 256, (float32bits f >>> 24) % 256]
      cap := max b.cap (b.buf.length + 4)
      pos := b.pos + 4 }) := by
  simp [Stream.Float32, hr, he, Uint32_write b _ hr he]

theorem Float64_write (b : Stream) (f : FP64) (hr : b.reading = false) (he : b.err = false) :
    b.Float64 f = some (f, { b with
      buf := b.buf ++ [float64bits f % 256, (float64bits f >>> 8) % 256,
        (float64bits f >>> 16) % 256, (float64bits f >>> 24) % 256,
        (float64bits f >>> 32) % 256, (float64bits f >>> 40) % 256,
        (float64bits f >>> 48) % 256, (float64bits f >>> 56) % 256]
      cap := max b.cap (b.buf.length + 8)
      pos := b.pos + 4 }) := by
  simp [Stream.Float64, hr, he, Uint64_write b _ hr he]

/-! ### Read-mode behavior on a fresh copy of exactly the field bytes -/

theorem Uint8_read_of_copy (b0 junk : Nat) :
    (NewReadingStreamCopy [b0]).Uint8 junk
      = some (b0, { buf := [b0], cap := 1, pos := 1, reading := true, err := false }) := rfl

theorem Uint16_read_of_copy (b0 b1 junk : Nat) :
    (NewReadingStreamCopy [b0, b1]).Uint16 junk
      = some (b0 ||| (b1 <<< 8),
          { buf := [b0, b1], cap := 2, pos := 2, reading := true, err := false }) := rfl

theorem Uint32_read_of_copy (b0 b1 b2 b3 junk : Nat) :
    (NewReadingStreamCopy [b0, b1, b2, b3]).Uint32 junk
      = some (((b0 ||| (b1 <<< 8)) ||| (b2 <<< 16)) ||| (b3 <<< 24),
          { buf := [b0, b1, b2, b3], cap := 4, pos := 4, reading := true, err := false }) := rfl

theorem Uint64_read_of_copy (b0 b1 b2 b3 b4 b5 b6 b7 junk : Nat) :
    (NewReadingStreamCopy [b0, b1, b2, b3, b4, b5, b6, b7]).Uint64 junk
      = some (((((((b0 ||| (b1 <<< 8)) ||| (b2 <<< 16)) ||| (b3 <<< 24)) ||| (b4 <<< 32)) |||
            (b5 <<< 40)) ||| (b6 <<< 48)) ||| (b7 <<< 56),
          { buf := [b0, b1, b2, b3, b4, b5, b6, b7], cap := 8, pos := 8,
            reading := true, err := false }) := rfl

theorem Int8_read_of_copy (b0 : Nat) (junk : Int) :
    (NewReadingStreamCopy [b0]).Int8 junk
      = some (toSigned 8 b0,
          { buf := [b0], cap := 1, pos := 1, reading := true, err := false }) := rfl

theorem Int16_read_of_copy (b0 b1 : Nat) (junk : Int) :
    (NewReadingStreamCopy [b0, b1]).Int16 junk
      = some (toSigned 16 (b0 ||| (b1 <<< 8)),
          { buf := [b0, b1], cap := 2, pos := 2, reading := true, err := false }) := rfl

theorem Int32_read_of_copy (b0 b1 b2 b3 : Nat) (junk : Int) :
    (NewReadingStreamCopy [b0, b1, b2, b3]).Int32 junk
      = some (toSigned 32 (((b0 ||| (b1 <<< 8)) ||| (b2 <<< 16)) ||| (b3 <<< 24)),
          { buf := [b0, b1, b2, b3], cap := 4, pos := 4, reading := true, err := false }) := rfl

theorem Int64_read_of_copy (b0 b1 b2 b3 b4 b5 b6 b7 : Nat) (junk : Int) :
    (NewReadingStreamCopy [b0, b1, b2, b3, b4, b5, b6, b7]).Int64 junk
      = some (toSigned 64 (((((((b0 ||| (b1 <<< 8)) ||| (b2 <<< 16)) ||| (b3 <<< 24)) |||
            (b4 <<< 32)) ||| (b5 <<< 40)) ||| (b6 <<< 48)) ||| (b7 <<< 56)),
          { buf := [b0, b1, b2, b3, b4, b5, b6, b7], cap := 8, pos := 8,
            reading := true, err := false }) := rfl

theorem Float32_read_of_copy (b0 b1 b2 b3 : Nat) (junk : FP32) :
    (NewReadingStreamCopy [b0, b1, b2, b3]).Float32 junk
      = some (float32frombits (((b0 ||| (b1 <<< 8)) ||| (b2 <<< 16)) ||| (b3 <<< 24)),
          { buf := [b0, b1, b2, b3], cap := 4, pos := 4, reading := true, err := false }) := rfl

theorem Float64_read_of_copy (b0 b1 b2 b3 b4 b5 b6 b7 : Nat) (junk : FP64) :
    (NewReadingStreamCopy [b0, b1, b2, b3, b4, b5, b6, b7]).Float64 junk
      = some (float64frombits (((((((b0 ||| (b1 <<< 8)) ||| (b2 <<< 16)) ||| (b3 <<< 24)) |||
            (b4 <<< 32)) ||| (b5 <<< 40)) ||| (b6 <<< 48)) ||| (b7 <<< 56)),
          { buf := [b0, b1, b2, b3, b4, b5, b6, b7], cap := 8, pos := 8,
            reading := true, err := false }) := rfl

/-! ### IEEE-754 field packing round-trips -/

theorem float32frombits_bits (f : FP32) (h : f.WF) : float32frombits (float32bits f) = f := by
  cases f with
  | mk s e m =>
    obtain ⟨he, hf⟩ := h
    have he₂ : e < 2 ^ 8 := he
    have hf₂ : m < 2 ^ 23 := hf
    cases s <;>
      simp only [float32bits, float32frombits, cond, FP32.mk.injEq] <;>
      refine ⟨?_, by omega, by omega⟩ <;>
      simp only [decide_eq_true_eq, decide_eq_false_iff_not] <;>
      omega

theorem float64frombits_bits (f : FP64) (h : f.WF) : float64frombits (float64bits f) = f := by
  cases f with
  | mk s e m =>
    obtain ⟨he, hf⟩ := h
    have he₂ : e < 2 ^ 11 := he
    have hf₂ : m < 2 ^ 52 := hf
    cases s <;>
      simp only [float64bits, float64frombits, cond, FP64.mk.injEq] <;>
      refine ⟨?_, by omega, by omega⟩ <;>
      simp only [decide_eq_true_eq, decide_eq_false_iff_not] <;>
      omega

theorem float32bits_lt (f : FP32) (h : f.WF) : float32bits f < 2 ^ 32 := by
  cases f with
  | mk s e m =>
    obtain ⟨he, hf⟩ := h
    have he₂ : e < 2 ^ 8 := he
    have hf₂ : m < 2 ^ 23 := hf
    cases s <;> simp only [float32bits, cond] <;> omega

theorem float64bits_lt (f : FP64) (h : f.WF) : float64bits f < 2 ^ 64 := by
  cases f with
  | mk s e m =>
    obtain ⟨he, hf⟩ := h
    have he₂ : e < 2 ^ 11 := he
    have hf₂ : m < 2 ^ 52 := hf
    cases s <;> simp only [float64bits, cond] <;> omega

theorem sar_eq_ediv (x : Int) (k : Nat) : sar x k = x / 2 ^ k :=
  Int.fdiv_eq_ediv x (by positivity)

/-- Low byte of a signed 64-bit value in terms of its unsigned pattern. -/
theorem i64byte0 (n : Int) : (n % 256).toNat = (n % 2 ^ 64).toNat % 256 := by omega

theorem i64byte1 (n : Int) : (n / 2 ^ 8 % 256).toNat = (n % 2 ^ 64).toNat / 2 ^ 8 % 256 := by
  omega

theorem i64byte2 (n : Int) : (n / 2 ^ 16 % 256).toNat = (n % 2 ^ 64).toNat / 2 ^ 16 % 256 := by
  omega

theorem i64byte3 (n : Int) : (n / 2 ^ 24 % 256).toNat = (n % 2 ^ 64).toNat / 2 ^ 24 % 256 := by
  omega

theorem i64byte4 (n : Int) : (n / 2 ^ 32 % 256).toNat = (n % 2 ^ 64).toNat / 2 ^ 32 % 256 := by
  omega

theorem i64byte5 (n : Int) : (n / 2 ^ 40 % 256).toNat = (n % 2 ^ 64).toNat / 2 ^ 40 % 256 := by
  omega

theorem i64byte6 (n : Int) : (n / 2 ^ 48 % 256).toNat = (n % 2 ^ 64).toNat / 2 ^ 48 % 256 := by
  omega

theorem i64byte7 (n : Int) : (n / 2 ^ 56 % 256).toNat = (n % 2 ^ 64).toNat / 2 ^ 56 % 256 := by
  omega

/-! ### Claim theorems -/

set_option maxHeartbeats 1600000 in
/-- C1: for every supported fixed-width numeric type (uint8/16/32/64,
int8/16/32/64, float32, float64) and every valid value `v` of that type,
writing `v` with the type's accessor on a write-mode `Stream`, taking
`Copy()` of that `Stream`, and calling the same accessor on the copy yields
exactly `v` — bit-exact for floats (modelled by their sign, exponent and
fraction fields) and sign-exact for signed integers; in particular the byte
`0xFF` read back through `Int8` yields `-1`. -/
theorem claim_C1_roundtrip_every_numeric_width (c : Nat) :
    (∀ n, n < 2 ^ 8 →
      (((NewWritingStream c).Uint8 n).bind (fun p => p.2.Copy.Uint8 0)).map (fun q => q.1)
        = some n)
  ∧ (∀ n, n < 2 ^ 16 →
      (((NewWritingStream c).Uint16 n).bind (fun p => p.2.Copy.Uint16 0)).map (fun q => q.1)
        = some n)
  ∧ (∀ n, n < 2 ^ 32 →
      (((NewWritingStream c).Uint32 n).bind (fun p => p.2.Copy.Uint32 0)).map (fun q => q.1)
        = some n)
  ∧ (∀ n, n < 2 ^ 64 →
      (((NewWritingStream c).Uint64 n).bind (fun p => p.2.Copy.Uint64 0)).map (fun q => q.1)
        = some n)
  ∧ (∀ n : Int, -(2 ^ 7) ≤ n → n < 2 ^ 7 →
      (((NewWritingStream c).Int8 n).bind (fun p => p.2.Copy.Int8 0)).map (fun q => q.1)
        = some n)
  ∧ (∀ n : Int, -(2 ^ 15) ≤ n → n < 2 ^ 15 →
      (((NewWritingStream c).Int16 n).bind (fun p => p.2.Copy.Int16 0)).map (fun q => q.1)
        = some n)
  ∧ (∀ n : Int, -(2 ^ 31) ≤ n → n < 2 ^ 31 →
      (((NewWritingStream c).Int32 n).bind (fun p => p.2.Copy.Int32 0)).map (fun q => q.1)
        = some n)
  ∧ (∀ n : Int, -(2 ^ 63) ≤ n → n < 2 ^ 63 →
      (((NewWritingStream c).Int64 n).bind (fun p => p.2.Copy.Int64 0)).map (fun q => q.1)
        = some n)
  ∧ (∀ f : FP32, f.WF →
      (((NewWritingStream c).Float32 f).bind
        (fun p => p.2.Copy.Float32 ⟨false, 0, 0⟩)).map (fun q => q.1) = some f)
  ∧ (∀ f : FP64, f.WF →
      (((NewWritingStream c).Float64 f).bind
        (fun p => p.2.Copy.Float64 ⟨false, 0, 0⟩)).map (fun q => q.1) = some f)
  ∧ ((NewStream [255] 1).Int8 0).map (fun q => q.1) = some (-1) := by
  refine ⟨?_, ?_, ?_, ?_, ?_, ?_, ?_, ?_, ?_, ?_, by decide⟩
  · intro n hn
    rw [Uint8_write _ _ rfl rfl]
    simp only [Option.some_bind, Stream.Copy, NewWritingStream, List.nil_append]
    rw [Uint8_read_of_copy]
    simp only [Option.map_some', Option.some.injEq]
    omega
  · intro n hn
    rw [Uint16_write _ _ rfl rfl]
    simp only [Option.some_bind, Stream.Copy, NewWritingStream, List.nil_append]
    rw [Uint16_read_of_copy]
    simp only [Option.map_some', Option.some.injEq]
    rw [lor_shiftLeft_eq_add (by omega)]
    simp only [Nat.shiftRight_eq_div_pow]
    omega
  · intro n hn
    rw [Uint32_write _ _ rfl rfl]
    simp only [Option.some_bind, Stream.Copy, NewWritingStream, List.nil_append]
    rw [Uint32_read_of_copy]
    simp only [Option.map_some', Option.some.injEq]
    rw [recomb32 (by omega) (by omega) (by omega)]
    simp only [Nat.shiftRight_eq_div_pow]
    omega
  · intro n hn
    rw [Uint64_write _ _ rfl rfl]
    simp only [Option.some_bind, Stream.Copy, NewWritingStream, List.nil_append]
    rw [Uint64_read_of_copy]
    simp only [Option.map_some', Option.some.injEq]
    rw [recomb64 (by omega) (by omega) (by omega) (by omega) (by omega) (by omega) (by omega)]
    simp only [Nat.shiftRight_eq_div_pow]
    omega
  · intro n h1 h2
    rw [Int8_write _ _ rfl rfl]
    simp only [Option.some_bind, Stream.Copy, NewWritingStream, List.nil_append]
    rw [Int8_read_of_copy]
    simp only [Option.map_some', Option.some.injEq]
    simp only [toSigned, byteOfInt]
    split <;> omega
  · intro n h1 h2
    rw [Int16_write _ _ rfl rfl]
    simp only [Option.some_bind, Stream.Copy, NewWritingStream, List.nil_append]
    rw [Int16_read_of_copy]
    simp only [Option.map_some', Option.some.injEq]
    rw [lor_shiftLeft_eq_add (show byteOfInt n < 2 ^ 8 by simp only [byteOfInt]; omega)]
    simp only [byteOfInt, sar_eq_ediv, toSigned]
    split <;> omega
  · intro n h1 h2
    rw [Int32_write _ _ rfl rfl]
    simp only [Option.some_bind, Stream.Copy, NewWritingStream, List.nil_append]
    rw [Int32_read_of_copy]
    simp only [Option.map_some', Option.some.injEq]
    rw [recomb32 (show byteOfInt n < 2 ^ 8 by simp only [byteOfInt]; omega)
      (show byteOfInt (sar n 8) < 2 ^ 8 by simp only [byteOfInt]; omega)
      (show byteOfInt (sar n 16) < 2 ^ 8 by simp only [byteOfInt]; omega)]
    simp only [byteOfInt, sar_eq_ediv, toSigned]
    split <;> omega
  · intro n h1 h2
    rw [Int64_write _ _ rfl rfl]
    simp only [Option.some_bind, Stream.Copy, NewWritingStream, List.nil_append]
    rw [Int64_read_of_copy]
    simp only [Option.map_some', Option.some.injEq]
    rw [recomb64 (show byteOfInt n < 2 ^ 8 by simp only [byteOfInt]; omega)
      (show byteOfInt (sar n 8) < 2 ^ 8 by simp only [byteOfInt]; omega)
      (show byteOfInt (sar n 16) < 2 ^ 8 by simp only [byteOfInt]; omega)
      (show byteOfInt (sar n 24) < 2 ^ 8 by simp only [byteOfInt]; omega)
      (show byteOfInt (sar n 32) < 2 ^ 8 by simp only [byteOfInt]; omega)
      (show byteOfInt (sar n 40) < 2 ^ 8 by simp only [byteOfInt]; omega)
      (show byteOfInt (sar n 48) < 2 ^ 8 by simp only [byteOfInt]; omega)]
    simp only [byteOfInt, sar_eq_ediv]
    rw [i64byte0 n, i64byte1 n, i64byte2 n, i64byte3 n, i64byte4 n, i64byte5 n,
        i64byte6 n, i64byte7 n]
    generalize hg : (n % 2 ^ 64).toNat = r
    have hr : r < 2 ^ 64 := by omega
    have hsum : r % 256 + r / 2 ^ 8 % 256 * 2 ^ 8 + r / 2 ^ 16 % 256 * 2 ^ 16 +
        r / 2 ^ 24 % 256 * 2 ^ 24 + r / 2 ^ 32 % 256 * 2 ^ 32 + r / 2 ^ 40 % 256 * 2 ^ 40 +
        r / 2 ^ 48 % 256 * 2 ^ 48 + r / 2 ^ 56 % 256 * 2 ^ 56 = r := by omega
    rw [hsum]
    simp only [toSigned]
    split <;> omega
  · intro f hwf
    rw [Float32_write _ _ rfl rfl]
    simp only [Option.some_bind, Stream.Copy, NewWritingStream, List.nil_append]
    rw [Float32_read_of_copy]
    simp only [Option.map_some', Option.some.injEq]
    rw [recomb32 (by omega) (by omega) (by omega)]
    have hlt := float32bits_lt f hwf
    have hsum : float32bits f % 256 + float32bits f >>> 8 % 256 * 2 ^ 8 +
        float32bits f >>> 16 % 256 * 2 ^ 16 + float32bits f >>> 24 % 256 * 2 ^ 24
        = float32bits f := by
      simp only [Nat.shiftRight_eq_div_pow]
      omega
    rw [hsum, float32frombits_bits f hwf]
  · intro f hwf
    rw [Float64_write _ _ rfl rfl]
    simp only [Option.some_bind, Stream.Copy, NewWritingStream, List.nil_append]
    rw [Float64_read_of_copy]
    simp only [Option.map_some', Option.some.injEq]
    rw [recomb64 (by omega) (by omega) (by omega) (by omega) (by omega) (by omega) (by omega)]
    have hlt := float64bits_lt f hwf
    have hsum : float64bits f % 256 + float64bits f >>> 8 % 256 * 2 ^ 8 +
        float64bits f >>> 16 % 256 * 2 ^ 16 + float64bits f >>> 24 % 256 * 2 ^ 24 +
        float64bits f >>> 32 % 256 * 2 ^ 32 + float64bits f >>> 40 % 256 * 2 ^ 40 +
        float64bits f >>> 48 % 256 * 2 ^ 48 + float64bits f >>> 56 % 256 * 2 ^ 56
        = float64bits f := by
      simp only [Nat.shiftRight_eq_div_pow]
      omega
    rw [hsum, float64frombits_bits f hwf]

/-- Witness for C1 at concrete inputs of every width. -/
theorem claim_C1_roundtrip_every_numeric_width_witness :
    ((((NewWritingStream 1).Uint8 255).bind (fun p => p.2.Copy.Uint8 0)).map (fun q => q.1)
        = some 255)
  ∧ ((((NewWritingStream 2).Uint16 43981).bind (fun p => p.2.Copy.Uint16 0)).map (fun q => q.1)
        = some 43981)
  ∧ ((((NewWritingStream 4).Uint32 4294967295).bind
        (fun p => p.2.Copy.Uint32 0)).map (fun q => q.1) = some 4294967295)
  ∧ ((((NewWritingStream 8).Uint64 18446744073709551615).bind
        (fun p => p.2.Copy.Uint64 0)).map (fun q => q.1) = some 18446744073709551615)
  ∧ ((((NewWritingStream 1).Int8 127).bind (fun p => p.2.Copy.Int8 0)).map (fun q => q.1)
        = some 127)
  ∧ ((((NewWritingStream 2).Int16 (-2)).bind (fun p => p.2.Copy.Int16 0)).map (fun q => q.1)
        = some (-2))
  ∧ ((((NewWritingStream 4).Int32 (-123456789)).bind
        (fun p => p.2.Copy.Int32 0)).map (fun q => q.1) = some (-123456789))
  ∧ ((((NewWritingStream 8).Int64 (-3)).bind (fun p => p.2.Copy.Int64 0)).map (fun q => q.1)
        = some (-3))
  ∧ ((((NewWritingStream 4).Float32 ⟨true, 128, 12345⟩).bind
        (fun p => p.2.Copy.Float32 ⟨false, 0, 0⟩)).map (fun q => q.1)
        = some ⟨true, 128, 12345⟩)
  ∧ ((((NewWritingStream 8).Float64 ⟨true, 1028, 123456789⟩).bind
        (fun p => p.2.Copy.Float64 ⟨false, 0, 0⟩)).map (fun q => q.1)
        = some ⟨true, 1028, 123456789⟩)
  ∧ ((NewStream [255] 1).Int8 0).map (fun q => q.1) = some (-1) := by
  have h1 := claim_C1_roundtrip_every_numeric_width 1
  have h2 := claim_C1_roundtrip_every_numeric_width 2
  have h4 := claim_C1_roundtrip_every_numeric_width 4
  have h8 := claim_C1_roundtrip_every_numeric_width 8
  exact ⟨h1.1 255 (by decide),
    h2.2.1 43981 (by decide),
    h4.2.2.1 4294967295 (by decide),
    h8.2.2.2.1 18446744073709551615 (by decide),
    (h1.2.2.2.2.1 : _) 127 (by decide) (by decide),
    h2.2.2.2.2.2.1 (-2) (by decide) (by decide),
    h4.2.2.2.2.2.2.1 (-123456789) (by decide) (by decide),
    h8.2.2.2.2.2.2.2.1 (-3) (by decide) (by decide),
    h4.2.2.2.2.2.2.2.2.1 ⟨true, 128, 12345⟩ ⟨by decide, by decide⟩,
    h8.2.2.2.2.2.2.2.2.2.1 ⟨true, 1028, 123456789⟩ ⟨by decide, by decide⟩,
    h1.2.2.2.2.2.2.2.2.2.2⟩

set_option maxHeartbeats 1000000 in
/-- C2: every numeric write accessor appends the value's bytes to the backing
storage least-significant byte first (little-endian) for every width — for
signed values the bytes of the two's-complement pattern, for floats the bytes
of the IEEE-754 bit pattern — and in particular writing the unsigned 16-bit
value `0xABCD` to a write-mode `Stream` leaves the byte sequence
`[0xCD, 0xAB]` in the backing storage. -/
theorem claim_C2_little_endian_byte_order :
    (∀ (b : Stream) (n : Nat), b.reading = false → b.err = false →
      (b.Uint8 n).map (fun p => p.2.buf) = some (b.buf ++ [n % 2 ^ 8])
      ∧ (b.Uint16 n).map (fun p => p.2.buf)
          = some (b.buf ++ [n % 2 ^ 8, n / 2 ^ 8 % 2 ^ 8])
      ∧ (b.Uint32 n).map (fun p => p.2.buf)
          = some (b.buf ++ [n % 2 ^ 8, n / 2 ^ 8 % 2 ^ 8, n / 2 ^ 16 % 2 ^ 8,
              n / 2 ^ 24 % 2 ^ 8])
      ∧ (b.Uint64 n).map (fun p => p.2.buf)
          = some (b.buf ++ [n % 2 ^ 8, n / 2 ^ 8 % 2 ^ 8, n / 2 ^ 16 % 2 ^ 8,
              n / 2 ^ 24 % 2 ^ 8, n / 2 ^ 32 % 2 ^ 8, n / 2 ^ 40 % 2 ^ 8,
              n / 2 ^ 48 % 2 ^ 8, n / 2 ^ 56 % 2 ^ 8]))
  ∧ (∀ (b : Stream) (n : Int), b.reading = false → b.err = false →
      (b.Int8 n).map (fun p => p.2.buf) = some (b.buf ++ [(n % 2 ^ 8).toNat])
      ∧ (b.Int16 n).map (fun p => p.2.buf)
          = some (b.buf ++ [(n % 2 ^ 16).toNat % 2 ^ 8, (n % 2 ^ 16).toNat / 2 ^ 8 % 2 ^ 8])
      ∧ (b.Int32 n).map (fun p => p.2.buf)
          = some (b.buf ++ [(n % 2 ^ 32).toNat % 2 ^ 8, (n % 2 ^ 32).toNat / 2 ^ 8 % 2 ^ 8,
              (n % 2 ^ 32).toNat / 2 ^ 16 % 2 ^ 8, (n % 2 ^ 32).toNat / 2 ^ 24 % 2 ^ 8])
      ∧ (b.Int64 n).map (fun p => p.2.buf)
          = some (b.buf ++ [(n % 2 ^ 64).toNat % 2 ^ 8, (n % 2 ^ 64).toNat / 2 ^ 8 % 2 ^ 8,
              (n % 2 ^ 64).toNat / 2 ^ 16 % 2 ^ 8, (n % 2 ^ 64).toNat / 2 ^ 24 % 2 ^ 8,
              (n % 2 ^ 64).toNat / 2 ^ 32 % 2 ^ 8, (n % 2 ^ 64).toNat / 2 ^ 40 % 2 ^ 8,
              (n % 2 ^ 64).toNat / 2 ^ 48 % 2 ^ 8, (n % 2 ^ 64).toNat / 2 ^ 56 % 2 ^ 8]))
  ∧ (∀ (b : Stream) (f : FP32), b.reading = false → b.err = false →
      (b.Float32 f).map (fun p => p.2.buf)
        = some (b.buf ++ [float32bits f % 2 ^ 8, float32bits f / 2 ^ 8 % 2 ^ 8,
            float32bits f / 2 ^ 16 % 2 ^ 8, float32bits f / 2 ^ 24 % 2 ^ 8]))
  ∧ (∀ (b : Stream) (f : FP64), b.reading = false → b.err = false →
      (b.Float64 f).map (fun p => p.2.buf)
        = some (b.buf ++ [float64bits f % 2 ^ 8, float64bits f / 2 ^ 8 % 2 ^ 8,
            float64bits f / 2 ^ 16 % 2 ^ 8, float64bits f / 2 ^ 24 % 2 ^ 8,
            float64bits f / 2 ^ 32 % 2 ^ 8, float64bits f / 2 ^ 40 % 2 ^ 8,
            float64bits f / 2 ^ 48 % 2 ^ 8, float64bits f / 2 ^ 56 % 2 ^ 8]))
  ∧ ((NewWritingStream 2).Uint16 43981).map (fun p => p.2.buf) = some [205, 171] := by
  refine ⟨?_, ?_, ?_, ?_, by decide⟩
  · intro b n hr he
    refine ⟨?_, ?_, ?_, ?_⟩
    · rw [Uint8_write b n hr he]; norm_num
    · rw [Uint16_write b n hr he]
      simp only [Option.map_some', Option.some.injEq, Nat.shiftRight_eq_div_pow]
      norm_num
    · rw [Uint32_write b n hr he]
      simp only [Option.map_some', Option.some.injEq, Nat.shiftRight_eq_div_pow]
      norm_num
    · rw [Uint64_write b n hr he]
      simp only [Option.map_some', Option.some.injEq, Nat.shiftRight_eq_div_pow]
      norm_num
  · intro b n hr he
    refine ⟨?_, ?_, ?_, ?_⟩
    · rw [Int8_write b n hr he]
      simp only [Option.map_some', Option.some.injEq, byteOfInt,
        List.append_cancel_left_eq, List.cons.injEq, and_true]
      norm_num
    · rw [Int16_write b n hr he]
      simp only [Option.map_some', Option.some.injEq, byteOfInt, sar_eq_ediv,
        List.append_cancel_left_eq, List.cons.injEq, and_true]
      exact ⟨by omega, by omega⟩
    · rw [Int32_write b n hr he]
      simp only [Option.map_some', Option.some.injEq, byteOfInt, sar_eq_ediv,
        List.append_cancel_left_eq, List.cons.injEq, and_true]
      exact ⟨by omega, by omega, by omega, by omega⟩
    · rw [Int64_write b n hr he]
      simp only [Option.map_some', Option.some.injEq, byteOfInt, sar_eq_ediv,
        List.append_cancel_left_eq, List.cons.injEq, and_true]
      exact ⟨i64byte0 n, i64byte1 n, i64byte2 n, i64byte3 n, i64byte4 n, i64byte5 n,
        i64byte6 n, i64byte7 n⟩
  · intro b f hr he
    rw [Float32_write b f hr he]
    simp only [Option.map_some', Option.some.injEq, Nat.shiftRight_eq_div_pow]
    norm_num
  · intro b f hr he
    rw [Float64_write b f hr he]
    simp only [Option.map_some', Option.some.injEq, Nat.shiftRight_eq_div_pow]
    norm_num

/-- Witness for C2 on a concrete write stream that already holds one byte. -/
theorem claim_C2_little_endian_byte_order_witness :
    ((Stream.mk [9] 5 1 false false).Uint16 43981).map (fun p => p.2.buf)
        = some ([9] ++ [43981 % 2 ^ 8, 43981 / 2 ^ 8 % 2 ^ 8])
  ∧ ((Stream.mk [9] 5 1 false false).Int16 (-2)).map (fun p => p.2.buf)
        = some ([9] ++ [((-2 : Int) % 2 ^ 16).toNat % 2 ^ 8,
            ((-2 : Int) % 2 ^ 16).toNat / 2 ^ 8 % 2 ^ 8])
  ∧ ((Stream.mk [9] 5 1 false false).Float32 ⟨true, 128, 12345⟩).map (fun p => p.2.buf)
        = some ([9] ++ [float32bits ⟨true, 128, 12345⟩ % 2 ^ 8,
            float32bits ⟨true, 128, 12345⟩ / 2 ^ 8 % 2 ^ 8,
            float32bits ⟨true, 128, 12345⟩ / 2 ^ 16 % 2 ^ 8,
            float32bits ⟨true, 128, 12345⟩ / 2 ^ 24 % 2 ^ 8])
  ∧ ((Stream.mk [9] 5 1 false false).Float64 ⟨true, 1028, 7⟩).map (fun p => p.2.buf)
        = some ([9] ++ [float64bits ⟨true, 1028, 7⟩ % 2 ^ 8,
            float64bits ⟨true, 1028, 7⟩ / 2 ^ 8 % 2 ^ 8,
            float64bits ⟨true, 1028, 7⟩ / 2 ^ 16 % 2 ^ 8,
            float64bits ⟨true, 1028, 7⟩ / 2 ^ 24 % 2 ^ 8,
            float64bits ⟨true, 1028, 7⟩ / 2 ^ 32 % 2 ^ 8,
            float64bits ⟨true, 1028, 7⟩ / 2 ^ 40 % 2 ^ 8,
            float64bits ⟨true, 1028, 7⟩ / 2 ^ 48 % 2 ^ 8,
            float64bits ⟨true, 1028, 7⟩ / 2 ^ 56 % 2 ^ 8])
  ∧ ((NewWritingStream 2).Uint16 43981).map (fun p => p.2.buf) = some [205, 171] :=
  ⟨(claim_C2_little_endian_byte_order.1 (Stream.mk [9] 5 1 false false) 43981 rfl rfl).2.1,
   (claim_C2_little_endian_byte_order.2.1 (Stream.mk [9] 5 1 false false) (-2) rfl rfl).2.1,
   claim_C2_little_endian_byte_order.2.2.1 (Stream.mk [9] 5 1 false false) ⟨true, 128, 12345⟩
     rfl rfl,
   claim_C2_little_endian_byte_order.2.2.2.1 (Stream.mk [9] 5 1 false false) ⟨true, 1028, 7⟩
     rfl rfl,
   claim_C2_little_endian_byte_order.2.2.2.2⟩

/-- Effect of `WriteBytes`: appends all of `src`, advances `pos` by its
length, and never touches the mode or the sticky error. -/
theorem WriteBytes_spec (b : Stream) (src : List Nat) :
    (b.WriteBytes src).buf = b.buf ++ src
  ∧ (b.WriteBytes src).pos = b.pos + src.length
  ∧ (b.WriteBytes src).err = b.err
  ∧ (b.WriteBytes src).reading = b.reading := by
  induction src generalizing b with
  | nil => simp [Stream.WriteBytes]
  | cons x rest ih =>
    obtain ⟨h1, h2, h3, h4⟩ := ih (b.WriteByte x)
    have hunf : b.WriteBytes (x :: rest) = (b.WriteByte x).WriteBytes rest := rfl
    have hb : (b.WriteByte x).buf = b.buf ++ [x] := rfl
    have hp : (b.WriteByte x).pos = b.pos + 1 := rfl
    have he : (b.WriteByte x).err = b.err := rfl
    have hm : (b.WriteByte x).reading = b.reading := rfl
    refine ⟨?_, ?_, ?_, ?_⟩
    · rw [hunf, h1, hb]
      simp
    · rw [hunf, h2, hp, List.length_cons]
      omega
    · rw [hunf, h3, he]
    · rw [hunf, h4, hm]

/-- C3: the bounds check of `GetBytes` compares the total storage length, not
the bytes remaining after `position`.  On a read stream over two bytes that
is already at position 1, `GetBytes 2` neither latches the end-of-data error
nor returns empty: the slice expression runs past the end of the storage and
panics (`none`); with spare backing capacity (second conjunct, capacity 4) it
instead returns a byte that was never part of the storage and advances
`position` beyond the storage length. -/
theorem claim_C3_getbytes_remaining_check_failing_input :
    (NewStream [10, 20] 2).GetBytes 1 = some ([10], Stream.mk [10, 20] 2 1 true false)
  ∧ (Stream.mk [10, 20] 2 1 true false).GetBytes 2 = none
  ∧ (Stream.mk [10, 20] 4 1 true false).GetBytes 2
      = some ([20, 0], Stream.mk [10, 20] 4 3 true false) := by
  decide

/-- C4: reading a 2-byte field from a fresh read cursor over a 1-byte buffer.
`Int16` behaves as the claim says (end-of-data latched, position 0, field
unmodified), but `Uint16` dereferences the nil slice returned by the failed
`GetBytes` and panics (`none`), because the unsigned multi-byte readers lack
the post-`GetBytes` error check the signed ones have. -/
theorem claim_C4_short_buffer_read_failing_input :
    (NewStream [170] 1).Uint16 0 = none
  ∧ (NewStream [170] 1).Int16 7 = some (7, Stream.mk [170] 1 0 true true)
  ∧ (NewStream [170] 1).Uint32 0 = none
  ∧ (NewStream [170] 1).Uint64 0 = none := by
  decide

/-- C5: the 8-byte write accessors append eight bytes but advance `position`
by only four, so `position == length(storage)` fails right after the first
`Uint64` or `Int64` write on a fresh write stream. -/
theorem claim_C5_write_position_failing_input :
    ((NewWritingStream 8).Uint64 1).map (fun p => (p.2.buf.length, p.2.pos)) = some (8, 4)
  ∧ ((NewWritingStream 8).Int64 (-1)).map (fun p => (p.2.buf.length, p.2.pos)) = some (8, 4)
  ∧ ((NewWritingStream 8).Uint64 1).map
      (fun p => decide (p.2.pos = p.2.buf.length)) = some false := by
  decide

/-- C6 counterexample: on a stream whose sticky error is latched (here by a
failed `GetBytes`), `WriteByte` is not a no-op — it still appends to storage
and advances the position, contradicting the claim that every accessor call
leaves `storage` and `position` unchanged once the error is set. -/
theorem claim_C6_sticky_error_counterexample :
    (NewStream [5] 1).GetBytes 2 = some ([], Stream.mk [5] 1 0 true true)
  ∧ (Stream.mk [5] 1 0 true true).err = true
  ∧ (Stream.WriteByte (Stream.mk [5] 1 0 true true) 7).buf = [5, 7]
  ∧ (Stream.WriteByte (Stream.mk [5] 1 0 true true) 7).buf
      ≠ (Stream.mk [5] 1 0 true true).buf
  ∧ (Stream.WriteByte (Stream.mk [5] 1 0 true true) 7).pos
      ≠ (Stream.mk [5] 1 0 true true).pos := by
  decide

/-- C6 amended: once the sticky error is set, every numeric accessor and the
raw byte reads (`GetBytes`, `GetByte`) are no-ops that leave the stream — its
storage, position and error — unchanged and leave the field untouched, and no
accessor ever clears the error; but the raw byte writes (`WriteByte`,
`WriteBytes`) do not check the sticky error: they still append to storage and
advance the position (keeping the error latched). -/
theorem claim_C6_sticky_error_amended (s : Stream) (herr : s.err = true) :
    (∀ len, s.GetBytes len = some ([], s))
  ∧ (∀ n, s.Uint8 n = some (n, s))
  ∧ (∀ n, s.Uint16 n = some (n, s))
  ∧ (∀ n, s.Uint32 n = some (n, s))
  ∧ (∀ n, s.Uint64 n = some (n, s))
  ∧ (∀ n : Int, s.Int8 n = some (n, s))
  ∧ (∀ n : Int, s.Int16 n = some (n, s))
  ∧ (∀ n : Int, s.Int32 n = some (n, s))
  ∧ (∀ n : Int, s.Int64 n = some (n, s))
  ∧ (∀ f : FP32, s.Float32 f = some (f, s))
  ∧ (∀ f : FP64, s.Float64 f = some (f, s))
  ∧ s.GetByte = some (0, s)
  ∧ (∀ c, (s.WriteByte c).buf = s.buf ++ [c] ∧ (s.WriteByte c).pos = s.pos + 1
      ∧ (s.WriteByte c).err = true)
  ∧ (∀ src, (s.WriteBytes src).buf = s.buf ++ src
      ∧ (s.WriteBytes src).pos = s.pos + src.length ∧ (s.WriteBytes src).err = true) := by
  refine ⟨fun len => by simp [Stream.GetBytes, herr],
    fun n => by simp [Stream.Uint8, herr],
    fun n => by simp [Stream.Uint16, herr],
    fun n => by simp [Stream.Uint32, herr],
    fun n => by simp [Stream.Uint64, herr],
    fun n => by simp [Stream.Int8, herr],
    fun n => by simp [Stream.Int16, herr],
    fun n => by simp [Stream.Int32, herr],
    fun n => by simp [Stream.Int64, herr],
    fun f => by simp [Stream.Float32, herr],
    fun f => by simp [Stream.Float64, herr],
    by simp [Stream.GetByte, herr],
    fun c => by simp [Stream.WriteByte, Stream.app1, herr],
    fun src => ?_⟩
  obtain ⟨h1, h2, h3, h4⟩ := WriteBytes_spec s src
  exact ⟨h1, h2, h3.trans herr⟩

/-- Witness for C6 amended, on a concrete errored stream. -/
theorem claim_C6_sticky_error_amended_witness :
    ((Stream.mk [5] 1 0 true true).GetBytes 3 = some ([], Stream.mk [5] 1 0 true true))
  ∧ ((Stream.mk [5] 1 0 true true).Uint16 9 = some (9, Stream.mk [5] 1 0 true true))
  ∧ ((Stream.mk [5] 1 0 true true).Int64 (-4)
      = some (-4, Stream.mk [5] 1 0 true true))
  ∧ ((Stream.mk [5] 1 0 true true).WriteByte 7).buf = [5] ++ [7]
  ∧ ((Stream.mk [5] 1 0 true true).WriteBytes [1, 2]).buf = [5] ++ [1, 2] :=
  ⟨(claim_C6_sticky_error_amended (Stream.mk [5] 1 0 true true) rfl).1 3,
   (claim_C6_sticky_error_amended (Stream.mk [5] 1 0 true true) rfl).2.2.1 9,
   (claim_C6_sticky_error_amended (Stream.mk [5] 1 0 true true) rfl).2.2.2.2.2.2.2.2.1 (-4),
   ((claim_C6_sticky_error_amended (Stream.mk [5] 1 0 true true)
      rfl).2.2.2.2.2.2.2.2.2.2.2.2.1 7).1,
   ((claim_C6_sticky_error_amended (Stream.mk [5] 1 0 true true)
      rfl).2.2.2.2.2.2.2.2.2.2.2.2.2 [1, 2]).1⟩

/-- C7: `Copy()` of any stream, in either mode, yields a read-mode cursor at
position 0 with no error over a byte-for-byte duplicate of the current
backing bytes, allocated exactly (capacity = length) so it shares no backing
array with the source; consequently mutating the source afterwards (here:
appending via `WriteByte`) does not change what the earlier copy holds. -/
theorem claim_C7_copy_independent_read_mode (s : Stream) (c : Nat) :
    (s.Copy).reading = true
  ∧ (s.Copy).pos = 0
  ∧ (s.Copy).err = false
  ∧ (s.Copy).buf = s.buf
  ∧ (s.Copy).cap = s.buf.length
  ∧ ((s.WriteByte c).Copy).buf = s.buf ++ [c]
  ∧ (s.Copy).buf ≠ ((s.WriteByte c).Copy).buf := by
  refine ⟨rfl, rfl, rfl, rfl, rfl, rfl, ?_⟩
  simp [Stream.Copy, NewReadingStreamCopy, Stream.WriteByte, Stream.app1]

/-- C8: the three-way disambiguation of `NewStream`: non-empty bytes give a
read-mode cursor over exactly those bytes at position 0; empty bytes with
nonzero capacity give a write-mode cursor reusing that capacity; empty bytes
with no capacity give a write-mode cursor with 1500 bytes of initial
capacity and empty storage. -/
theorem claim_C8_newstream_three_way (buf : List Nat) (cap : Nat) :
    (buf ≠ [] → NewStream buf cap
        = { buf := buf, cap := cap, pos := 0, reading := true, err := false })
  ∧ (buf = [] → 0 < cap → NewStream buf cap
        = { buf := [], cap := cap, pos := 0, reading := false, err := false })
  ∧ (buf = [] → cap = 0 → NewStream buf cap = NewWritingStream 1500
      ∧ (NewStream buf cap).buf = []
      ∧ (NewStream buf cap).cap = 1500
      ∧ (NewStream buf cap).reading = false
      ∧ (NewStream buf cap).pos = 0) := by
  refine ⟨fun h => ?_, fun h hcap => ?_, fun h hcap => ?_⟩
  · have hlen : ¬ buf.length = 0 := by simpa using h
    simp [NewStream, hlen]
  · subst h
    simp [NewStream, hcap, Nat.pos_iff_ne_zero.mp hcap]
  · subst h
    simp [NewStream, hcap, NewWritingStream]

/-- Witness for C8 at one concrete input per branch. -/
theorem claim_C8_newstream_three_way_witness :
    (NewStream [7] 1 = { buf := [7], cap := 1, pos := 0, reading := true, err := false })
  ∧ (NewStream [] 9 = { buf := [], cap := 9, pos := 0, reading := false, err := false })
  ∧ (NewStream [] 0 = NewWritingStream 1500 ∧ (NewStream [] 0).buf = []
      ∧ (NewStream [] 0).cap = 1500 ∧ (NewStream [] 0).reading = false
      ∧ (NewStream [] 0).pos = 0) :=
  ⟨(claim_C8_newstream_three_way [7] 1).1 (by decide),
   (claim_C8_newstream_three_way [] 9).2.1 rfl (by decide),
   (claim_C8_newstream_three_way [] 0).2.2 rfl rfl⟩

/-- C9: the float accessors are bit-reinterpretation through the same-width
unsigned accessor.  In write mode, `Float32`/`Float64` produce exactly the
stream state of writing the IEEE-754 bit pattern through `Uint32`/`Uint64`;
in read mode they read through `Uint32`/`Uint64` and reinterpret the bits,
so they inherit the unsigned accessor's failure behavior unchanged
(including its panic on a short buffer, `none`). -/
theorem claim_C9_float_bit_reinterpretation (s : Stream) (f : FP32) (g : FP64) :
    (s.reading = false →
      s.Float32 f = (s.Uint32 (float32bits f)).map (fun p => (f, p.2))
      ∧ s.Float64 g = (s.Uint64 (float64bits g)).map (fun p => (g, p.2)))
  ∧ (s.reading = true → s.err = false →
      s.Float32 f = (s.Uint32 0).map (fun p => (float32frombits p.1, p.2))
      ∧ s.Float64 g = (s.Uint64 0).map (fun p => (float64frombits p.1, p.2))) := by
  constructor
  · intro hr
    by_cases herr : s.err
    · constructor <;> simp [Stream.Float32, Stream.Float64, Stream.Uint32, Stream.Uint64, herr]
    · constructor <;> simp [Stream.Float32, Stream.Float64, hr, herr]
  · intro hr herr
    constructor
    · rcases h : s.Uint32 0 with _ | ⟨v, b₂⟩ <;> simp [Stream.Float32, hr, herr, h]
    · rcases h : s.Uint64 0 with _ | ⟨v, b₂⟩ <;> simp [Stream.Float64, hr, herr, h]

/-- Witness for C9: one write-mode and two read-mode streams (the second
read stream is short, exercising the shared failure/panic path). -/
theorem claim_C9_float_bit_reinterpretation_witness :
    ((NewWritingStream 4).Float32 ⟨true, 3, 5⟩
        = ((NewWritingStream 4).Uint32 (float32bits ⟨true, 3, 5⟩)).map
            (fun p => (⟨true, 3, 5⟩, p.2))
      ∧ (NewWritingStream 4).Float64 ⟨false, 9, 2⟩
        = ((NewWritingStream 4).Uint64 (float64bits ⟨false, 9, 2⟩)).map
            (fun p => (⟨false, 9, 2⟩, p.2)))
  ∧ ((NewStream [1, 2, 3, 4, 5, 6, 7, 8] 8).Float32 ⟨true, 3, 5⟩
        = ((NewStream [1, 2, 3, 4, 5, 6, 7, 8] 8).Uint32 0).map
            (fun p => (float32frombits p.1, p.2))
      ∧ (NewStream [1, 2, 3, 4, 5, 6, 7, 8] 8).Float64 ⟨false, 9, 2⟩
        = ((NewStream [1, 2, 3, 4, 5, 6, 7, 8] 8).Uint64 0).map
            (fun p => (float64frombits p.1, p.2)))
  ∧ ((NewStream [1] 1).Float32 ⟨true, 3, 5⟩
        = ((NewStream [1] 1).Uint32 0).map (fun p => (float32frombits p.1, p.2))) :=
  ⟨(claim_C9_float_bit_reinterpretation (NewWritingStream 4) ⟨true, 3, 5⟩ ⟨false, 9, 2⟩).1 rfl,
   (claim_C9_float_bit_reinterpretation (NewStream [1, 2, 3, 4, 5, 6, 7, 8] 8)
      ⟨true, 3, 5⟩ ⟨false, 9, 2⟩).2 rfl rfl,
   ((claim_C9_float_bit_reinterpretation (NewStream [1] 1)
      ⟨true, 3, 5⟩ ⟨false, 9, 2⟩).2 rfl rfl).1⟩

/-- C10 counterexample: the raw byte operations are indeed not mode-guarded,
but on a write-mode stream `GetBytes` does not "return bytes of the written
storage or set the end-of-data error": starting from a fresh write stream
after `WriteByte 5` (position 1 = length 1, capacity 10), `GetBytes 1` is
accepted, latches no error, and returns the byte `0`, which lies past the
written data in the unwritten capacity region and was never written. -/
theorem claim_C10_write_mode_getbytes_counterexample :
    Stream.WriteByte (NewWritingStream 10) 5 = Stream.mk [5] 10 1 false false
  ∧ (Stream.mk [5] 10 1 false false).GetBytes 1
      = some ([0], Stream.mk [5] 10 2 false false)
  ∧ (Stream.mk [5] 10 2 false false).err = false
  ∧ (0 : Nat) ∉ (Stream.mk [5] 10 1 false false).buf := by
  decide

/-- C10 amended: the mode flag guards neither raw byte operation.  On any
error-free read-mode stream `WriteByte` appends and advances the position
instead of failing; on any error-free write-mode stream `GetBytes n` is not
rejected either and runs the same unchecked logic: if the storage holds
fewer than `n` bytes it latches the end-of-data error, otherwise it returns
the `n` bytes of the backing array starting at `position` — which in write
mode lie at or past the end of the written data, so they come from the
zeroed unwritten capacity region — advancing `position` by `n`, or panics
when `position + n` exceeds the capacity. -/
theorem claim_C10_mode_flag_unguarded_amended (s : Stream) (n c : Nat) :
    (s.reading = true → s.err = false →
      (s.WriteByte c).buf = s.buf ++ [c] ∧ (s.WriteByte c).pos = s.pos + 1
      ∧ (s.WriteByte c).err = false)
  ∧ (s.reading = false → s.err = false →
      (s.buf.length < n → s.GetBytes n = some ([], { s with err := true }))
      ∧ (n ≤ s.buf.length → s.pos + n ≤ s.cap →
          s.GetBytes n = some ((((s.buf ++ List.replicate (s.cap - s.buf.length) 0).drop
            s.pos).take n), { s with pos := s.pos + n }))
      ∧ (n ≤ s.buf.length → s.cap < s.pos + n → s.GetBytes n = none)) := by
  constructor
  · intro hr herr
    exact ⟨rfl, rfl, herr⟩
  · intro hr herr
    refine ⟨fun hshort => ?_, fun hn hcap => ?_, fun hn hcap => ?_⟩
    · simp [Stream.GetBytes, herr, hshort]
    · have hok : ¬ s.buf.length < n := by omega
      simp only [Stream.GetBytes, herr, Bool.false_eq_true, if_false, hok, goSlice]
      rw [if_pos (by omega)]
      simp [Nat.add_sub_cancel_left]
    · have hok : ¬ s.buf.length < n := by omega
      simp only [Stream.GetBytes, herr, Bool.false_eq_true, if_false, hok, goSlice]
      rw [if_neg (by omega)]

/-- Witness for C10 amended: a read-mode stream accepting `WriteByte`, and a
write-mode stream (one written byte, capacity 10) accepting `GetBytes`. -/
theorem claim_C10_mode_flag_unguarded_amended_witness :
    ((Stream.mk [1] 1 0 true false).WriteByte 7).buf = [1] ++ [7]
  ∧ ((Stream.mk [1] 1 0 true false).WriteByte 7).pos = 0 + 1
  ∧ ((Stream.mk [5] 10 1 false false).GetBytes 1
      = some (((([5] ++ List.replicate (10 - ([5] : List Nat).length) 0).drop 1).take 1),
          { Stream.mk [5] 10 1 false false with pos := 1 + 1 }))
  ∧ ((Stream.mk [5] 10 1 false false).GetBytes 7
      = some ([], { Stream.mk [5] 10 1 false false with err := true }))
  ∧ ((Stream.mk [5] 1 1 false false).GetBytes 1 = none) :=
  ⟨((claim_C10_mode_flag_unguarded_amended (Stream.mk [1] 1 0 true false) 0 7).1 rfl rfl).1,
   ((claim_C10_mode_flag_unguarded_amended (Stream.mk [1] 1 0 true false) 0 7).1 rfl rfl).2.1,
   ((claim_C10_mode_flag_unguarded_amended (Stream.mk [5] 10 1 false false) 1 0).2 rfl
      rfl).2.1 (by decide) (by decide),
   ((claim_C10_mode_flag_unguarded_amended (Stream.mk [5] 10 1 false false) 7 0).2 rfl
      rfl).1 (by decide),
   ((claim_C10_mode_flag_unguarded_amended (Stream.mk [5] 1 1 false false) 1 0).2 rfl
      rfl).2.2 (by decide) (by decide)⟩

end Binser
